/-
Verification of the Questionnaire API core (main.py): credential gate,
question store (bulk load and append), query/selection engine, and the
persistence bridge.  The Python source is shallowly embedded: Python
strings become lists of characters (`Str`), each handler becomes a pure
Lean function, the process-wide random source is passed in as explicit
`sample`/`shuffle` parameters, and the filesystem/environment effects of
the persistence bridge appear as explicit booleans.
-/
import Mathlib

/-- A Python string, modelled as its sequence of characters. -/
abbrev Str := List Char

/-- Coerce a Lean string literal to the `Str` model. -/
def str (s : String) : Str := s.data

/-- Python `s.strip()`: remove leading and trailing whitespace. -/
def pyStrip (s : Str) : Str :=
  ((s.dropWhile Char.isWhitespace).reverse.dropWhile Char.isWhitespace).reverse

/-- Python `s.lower()`: lowercase every character. -/
def pyLower (s : Str) : Str := s.map Char.toLower

/-- Python `s.startswith(p)`. -/
def pyStartsWith (p s : Str) : Bool := p.isPrefixOf s

/-- Python `s.split(c)` for a one-character separator: split on every
occurrence, keeping empty parts (`"".split(",") == [""]`). -/
def pySplitOn (c : Char) : Str → List Str
  | [] => [[]]
  | a :: as =>
    if a = c then [] :: pySplitOn c as
    else
      match pySplitOn c as with
      | [] => [[a]]
      | h :: t => (a :: h) :: t

/-- The static admin password `ADMIN_PASSWORD = "4dm1N"` from main.py. -/
def ADMIN_PASSWORD : Str := str "4dm1N"

/-- Lookup in the static user table
`USERS = {"alice": "wonderland", "bob": "builder", "clementine": "mandarine"}`;
`usersLookup u` models `USERS.get(u)` (dict lookup by key equality). -/
def usersLookup (u : Str) : Option Str :=
  if u = str "alice" then some (str "wonderland")
  else if u = str "bob" then some (str "builder")
  else if u = str "clementine" then some (str "mandarine")
  else none

/-- The identity produced by a successful credential check:
`{"username": ..., "is_admin": ...}`. -/
structure Identity where
  username : Str
  isAdmin : Bool
deriving Repr, DecidableEq

/-- The errors the API raises (`HTTPException` discriminated by status code
and detail).  `missingHeader`, `badScheme`, `badFormat`, `badCredentials`
are the four 401 details of `get_current_user`; `forbidden` is the 403 of
`create_question`; `badCount`/`notEnough` are the 400s and `notFound` the
404 of `get_questions`. -/
inductive ApiError where
  | missingHeader
  | badScheme
  | badFormat
  | badCredentials
  | forbidden
  | badCount
  | notFound
  | notEnough (available : Nat) (requested : Int)
deriving Repr, DecidableEq

/-- HTTP status code carried by each error. -/
def ApiError.statusCode : ApiError → Nat
  | .missingHeader => 401
  | .badScheme => 401
  | .badFormat => 401
  | .badCredentials => 401
  | .forbidden => 403
  | .badCount => 400
  | .notFound => 404
  | .notEnough _ _ => 400

/-- Models the combination of `":" in creds` and `creds.split(":", 1)`:
`none` when the string holds no colon, otherwise the parts before and
after the first colon. -/
def splitFirstColon : Str → Option (Str × Str)
  | [] => none
  | c :: cs =>
    if c = ':' then some ([], cs)
    else
      match splitFirstColon cs with
      | none => none
      | some (u, p) => some (c :: u, p)

/-- Embedding of `get_current_user(authorization)` (main.py lines 79-98).
`if not authorization` fires on `None` and on the empty string; the
payload after the 6-character prefix `"Basic "` is stripped, then split
on the first colon; the admin password wins before the user table. -/
def getCurrentUser (authorization : Option Str) : Except ApiError Identity :=
  match authorization with
  | none => .error .missingHeader
  | some a =>
    if a = [] then .error .missingHeader
    else if pyStartsWith (str "Basic ") a then
      match splitFirstColon (pyStrip (a.drop 6)) with
      | none => .error .badFormat
      | some (username, password) =>
        if password = ADMIN_PASSWORD then .ok ⟨username, true⟩
        else
          match usersLookup username with
          | some expected =>
            if expected ≠ [] ∧ expected = password then .ok ⟨username, false⟩
            else .error .badCredentials
          | none => .error .badCredentials
    else .error .badScheme

/-- A stored Question (`QUESTIONS_DB` entry).  Bulk-loaded rows carry
`some` text in all four response slots; appended payloads may carry
`none` (Python `None`) when the optional field was omitted. -/
structure Question where
  qid : Nat
  question : Str
  subject : Str
  correct : Str
  use : Str
  responseA : Option Str
  responseB : Option Str
  responseC : Option Str
  responseD : Option Str
deriving Repr, DecidableEq

/-- The validated POST payload (`QuestionIn`): four required text fields,
four optional response fields defaulting to `None`. -/
structure QuestionIn where
  question : Str
  subject : Str
  correct : Str
  use : Str
  responseA : Option Str := none
  responseB : Option Str := none
  responseC : Option Str := none
  responseD : Option Str := none
deriving Repr, DecidableEq

/-- main.py lines 147-150: flatten the repeated `subject` parameter by
splitting each element on commas, stripping whitespace, dropping empty
parts, then lowercasing the whole flattened list. -/
def normalizeSubjects (subject : List Str) : List Str :=
  ((subject.map (fun s =>
    ((pySplitOn ',' s).map pyStrip).filter (fun t => t ≠ []))).flatten).map pyLower

/-- The filter predicate of main.py lines 152-156: the question's `use`
(stripped, lowercased) equals the requested one and its `subject`
(stripped, lowercased) occurs in the normalized subject list. -/
def questionMatches (use : Str) (ns : List Str) (q : Question) : Bool :=
  (pyLower (pyStrip q.use) = pyLower (pyStrip use)) &&
    (pyLower (pyStrip q.subject) ∈ ns)

/-- Embedding of `get_questions` (main.py lines 137-169).  `sample pop k`
stands for `random.sample(pop, k)` and `shuffle` for `random.shuffle`;
the theorems constrain them only by their contracts (a length-`k`
sub-permutation, resp. a permutation).  `count` is a Python int. -/
def getQuestions (sample : List Question → Nat → List Question)
    (shuffle : List Question → List Question)
    (db : List Question) (use : Str) (subject : List Str) (count : Int) :
    Except ApiError (List Question) :=
  if ¬ (count = 5 ∨ count = 10 ∨ count = 20) then .error .badCount
  else if db.filter (questionMatches use (normalizeSubjects subject)) = []
    then .error .notFound
  else if ((db.filter
      (questionMatches use (normalizeSubjects subject))).length : Int) <
      count then
    .error (.notEnough
      (db.filter (questionMatches use (normalizeSubjects subject))).length
      count)
  else .ok (shuffle (sample
    (db.filter (questionMatches use (normalizeSubjects subject)))
    count.toNat))

/-- The append step of `create_question` (main.py lines 177-180):
`max_id = max((q["qid"] for q in QUESTIONS_DB), default=0)`, the stored
copy gets `qid = max_id + 1` and is appended; returns the new store and
the created entry. -/
def createQuestion (db : List Question) (nq : QuestionIn) :
    List Question × Question :=
  let maxId := (db.map Question.qid).foldr max 0
  let created : Question :=
    { qid := maxId + 1, question := nq.question, subject := nq.subject,
      correct := nq.correct, use := nq.use, responseA := nq.responseA,
      responseB := nq.responseB, responseC := nq.responseC,
      responseD := nq.responseD }
  (db ++ [created], created)

/-- One row of the DataFrame written back by the persistence bridge
(main.py lines 185-199): `q.get(...)` on keys that are always present
returns the stored values unchanged, `None` included. -/
structure PersistRow where
  question : Str
  subject : Str
  correct : Str
  use : Str
  responseA : Option Str
  responseB : Option Str
  responseC : Option Str
  responseD : Option Str
deriving Repr, DecidableEq

/-- Serialize one stored Question to a persistence row. -/
def serializeRow (q : Question) : PersistRow :=
  { question := q.question, subject := q.subject, correct := q.correct,
    use := q.use, responseA := q.responseA, responseB := q.responseB,
    responseC := q.responseC, responseD := q.responseD }

/-- Observable outcome of one `create_question` call: the store after the
call, whether the persistence branch ran (`os.path.exists` was true),
what reached the file (none when skipped or when the write raised), and
the HTTP response. -/
structure CreateOutcome where
  newDb : List Question
  attempted : Bool
  written : Option (List PersistRow)
  response : Except ApiError Question
deriving Repr

/-- Embedding of the whole `create_question` endpoint (main.py lines
172-204).  `pathExists` models `os.path.exists(persist_path)` and
`writeOk` whether `df.to_excel` succeeds; the `except: pass` swallows a
failed write, so the response never depends on `writeOk`. -/
def createQuestionEndpoint (isAdmin : Bool) (pathExists writeOk : Bool)
    (db : List Question) (nq : QuestionIn) : CreateOutcome :=
  if ¬ isAdmin then
    { newDb := db, attempted := false, written := none,
      response := .error .forbidden }
  else
    let r := createQuestion db nq
    { newDb := r.1,
      attempted := pathExists,
      written := if pathExists && writeOk then some (r.1.map serializeRow)
                 else none,
      response := .ok r.2 }

/-- One row of the loaded spreadsheet after `df.columns` normalization and
`df.fillna("")` (main.py lines 48-49): eight text cells under the
lowercased column-name contract. -/
structure Row where
  question : Str
  subject : Str
  correct : Str
  use : Str
  responsea : Str
  responseb : Str
  responsec : Str
  responsed : Str
deriving Repr, DecidableEq

/-- Question built from row number `i` (0-based) in the bulk load loop
(main.py lines 52-64): `qid = i + 1`, all four responses present as
text. -/
def mkLoadedQuestion (i : Nat) (r : Row) : Question :=
  { qid := i + 1, question := r.question, subject := r.subject,
    correct := r.correct, use := r.use, responseA := some r.responsea,
    responseB := some r.responseb, responseC := some r.responsec,
    responseD := some r.responsed }

/-- The `for i, row in df.iterrows()` loop with running row index `i`. -/
def loadQuestionsAux (i : Nat) : List Row → List Question
  | [] => []
  | r :: rs => mkLoadedQuestion i r :: loadQuestionsAux (i + 1) rs

/-- Bulk load `load_questions_from_path_or_url`, restricted to its row
mapping: the fetched/parsed dataset is the input, one row per Question,
`qid` = row position + 1. -/
def loadQuestions (rows : List Row) : List Question :=
  loadQuestionsAux 0 rows

/-- The store states reachable in a process lifetime: the bulk load at
startup (or the empty store when the load failed), followed by any
sequence of appends. -/
inductive Reachable : List Question → Prop
  | loaded (rows : List Row) : Reachable (loadQuestions rows)
  | loadFailed : Reachable []
  | append (db : List Question) (nq : QuestionIn) :
      Reachable db → Reachable (createQuestion db nq).1

/-- Spec-side failure condition of the Credential Gate, written from the
spec's words: input absent, or scheme prefix missing, or no colon in the
payload, or the password matches neither the admin password nor the
user-table entry for the extracted username. -/
def authFails : Option Str → Prop
  | none => True
  | some a =>
      pyStartsWith (str "Basic ") a = false ∨
      splitFirstColon (pyStrip (a.drop 6)) = none ∨
      ∃ u p, splitFirstColon (pyStrip (a.drop 6)) = some (u, p) ∧
        p ≠ ADMIN_PASSWORD ∧ usersLookup u ≠ some p

/-- Spec-side subject normalization, written from the spec's words:
split each element on commas, trim each part, discard empty parts,
lowercase each resulting token, flatten. -/
def specNormalizedSubjects (subject : List Str) : List Str :=
  (subject.map (fun s =>
    (((pySplitOn ',' s).map pyStrip).filter (fun t => t ≠ [])).map pyLower)).flatten

/-- Spec-side match condition, written from the spec's words: the `use`
fields agree up to trim/lowercase and the trimmed, lowercased subject is
a member of the normalized subject set. -/
def specMatches (use : Str) (subject : List Str) (q : Question) : Prop :=
  pyLower (pyStrip q.use) = pyLower (pyStrip use) ∧
    pyLower (pyStrip q.subject) ∈ specNormalizedSubjects subject

open List

/-! ### Helper lemmas -/

theorem usersLookup_ne_nil (u e : Str) (h : usersLookup u = some e) :
    e ≠ [] := by
  intro hnil
  subst hnil
  unfold usersLookup at h
  split at h
  · exact absurd h (by decide)
  · split at h
    · exact absurd h (by decide)
    · split at h
      · exact absurd h (by decide)
      · exact absurd h (by decide)

/-- C1: an input whose payload splits on a colon into a username and the
admin password is accepted with `isAdmin = true`, whatever the username —
including ones absent from the static user table. -/
theorem getCurrentUser_adminOverride (a u p : Str)
    (hb : pyStartsWith (str "Basic ") a = true)
    (hsplit : splitFirstColon (pyStrip (a.drop 6)) = some (u, p))
    (hp : p = ADMIN_PASSWORD) :
    getCurrentUser (some a) = .ok ⟨u, true⟩ := by
  have ha : ¬ a = [] := by
    intro h
    subst h
    exact absurd hb (by decide)
  simp only [getCurrentUser]
  rw [if_neg ha, if_pos hb, hsplit]
  simp [hp]

/-- Witness for C1: the username `"anything"` is not in the user table,
yet the admin password logs it in as admin. -/
theorem getCurrentUser_adminOverride_witness :
    getCurrentUser (some (str "Basic anything:4dm1N")) =
      .ok ⟨str "anything", true⟩ :=
  getCurrentUser_adminOverride (str "Basic anything:4dm1N")
    (str "anything") (str "4dm1N") (by decide) (by decide) (by decide)

/-- C7: the Credential Gate rejects exactly the inputs that are absent,
lack the case-sensitive `"Basic "` prefix, hold no colon in the payload,
or whose password matches neither the admin password nor the user-table
entry for the extracted username; every other input yields an Identity.
The embedding is a pure function of the input and the static tables, so
the gate has no side effects. -/
theorem getCurrentUser_error_iff (auth : Option Str) :
    (∃ e, getCurrentUser auth = .error e) ↔ authFails auth := by
  cases auth with
  | none => exact ⟨fun _ => trivial, fun _ => ⟨.missingHeader, rfl⟩⟩
  | some a =>
    by_cases ha : a = []
    · subst ha
      exact ⟨fun _ => Or.inl (by decide), fun _ => ⟨.missingHeader, rfl⟩⟩
    · cases hb : pyStartsWith (str "Basic ") a with
      | false =>
        have hg : getCurrentUser (some a) = .error .badScheme := by
          simp only [getCurrentUser]
          rw [if_neg ha, if_neg (by simp [hb])]
        exact ⟨fun _ => Or.inl hb, fun _ => ⟨_, hg⟩⟩
      | true =>
        cases hs : splitFirstColon (pyStrip (a.drop 6)) with
        | none =>
          have hg : getCurrentUser (some a) = .error .badFormat := by
            simp only [getCurrentUser]
            rw [if_neg ha, if_pos hb, hs]
          exact ⟨fun _ => Or.inr (Or.inl hs), fun _ => ⟨_, hg⟩⟩
        | some up =>
          obtain ⟨u, p⟩ := up
          by_cases hp : p = ADMIN_PASSWORD
          · have hg : getCurrentUser (some a) = .ok ⟨u, true⟩ := by
              simp only [getCurrentUser]
              rw [if_neg ha, if_pos hb, hs]
              simp [hp]
            constructor
            · rintro ⟨e, he⟩
              rw [hg] at he
              cases he
            · intro hf
              exfalso
              rcases hf with hf | hf | ⟨u', p', hs', hp', _⟩
              · rw [hb] at hf; cases hf
              · rw [hs] at hf; cases hf
              · rw [hs] at hs'
                injection hs' with h
                obtain ⟨rfl, rfl⟩ := Prod.mk.injEq .. ▸ h
                exact hp' hp
          · cases hl : usersLookup u with
            | none =>
              have hg : getCurrentUser (some a) = .error .badCredentials := by
                simp only [getCurrentUser]
                rw [if_neg ha, if_pos hb, hs]
                simp only [if_neg hp, hl]
              refine ⟨fun _ => Or.inr (Or.inr ⟨u, p, hs, hp, ?_⟩),
                fun _ => ⟨_, hg⟩⟩
              rw [hl]
              exact fun h => Option.noConfusion h
            | some e =>
              have hene : e ≠ [] := usersLookup_ne_nil u e hl
              by_cases hep : e = p
              · have hg : getCurrentUser (some a) = .ok ⟨u, false⟩ := by
                  simp only [getCurrentUser]
                  rw [if_neg ha, if_pos hb, hs]
                  simp only [if_neg hp, hl]
                  rw [if_pos ⟨hene, hep⟩]
                constructor
                · rintro ⟨e', he⟩
                  rw [hg] at he
                  cases he
                · intro hf
                  exfalso
                  rcases hf with hf | hf | ⟨u', p', hs', hp', hl'⟩
                  · rw [hb] at hf; cases hf
                  · rw [hs] at hf; cases hf
                  · rw [hs] at hs'
                    injection hs' with h
                    obtain ⟨rfl, rfl⟩ := Prod.mk.injEq .. ▸ h
                    exact hl' (hep ▸ hl)
              · have hg : getCurrentUser (some a) = .error .badCredentials := by
                  simp only [getCurrentUser]
                  rw [if_neg ha, if_pos hb, hs]
                  simp only [if_neg hp, hl]
                  rw [if_neg (fun hc => hep hc.2)]
                refine ⟨fun _ => Or.inr (Or.inr ⟨u, p, hs, hp, ?_⟩),
                  fun _ => ⟨_, hg⟩⟩
                rw [hl]
                intro h
                injection h with h
                exact hep h

theorem mem_le_foldrMax (l : List Nat) (x : Nat) (hx : x ∈ l) :
    x ≤ l.foldr max 0 := by
  induction l with
  | nil => cases hx
  | cons a t ih =>
    rcases List.mem_cons.mp hx with rfl | hx
    · exact le_max_left _ _
    · exact le_trans (ih hx) (le_max_right _ _)

theorem foldrMax_le (l : List Nat) (k : Nat) (hk : ∀ x ∈ l, x ≤ k) :
    l.foldr max 0 ≤ k := by
  induction l with
  | nil => exact Nat.zero_le k
  | cons a t ih =>
    exact max_le (hk a (.head _)) (ih fun x hx => hk x (.tail _ hx))

/-- C2: an append puts the created Question at the end of the store,
copies every payload field into it, and assigns `qid = max + 1`: `1` on
the empty store, `k + 1` when `k` is the maximum existing qid. -/
theorem createQuestion_append_spec (db : List Question) (nq : QuestionIn) :
    (createQuestion db nq).1 = db ++ [(createQuestion db nq).2] ∧
    (db = [] → (createQuestion db nq).2.qid = 1) ∧
    (∀ k, (∃ q ∈ db, q.qid = k) → (∀ q ∈ db, q.qid ≤ k) →
      (createQuestion db nq).2.qid = k + 1) ∧
    (createQuestion db nq).2.question = nq.question ∧
    (createQuestion db nq).2.subject = nq.subject ∧
    (createQuestion db nq).2.correct = nq.correct ∧
    (createQuestion db nq).2.use = nq.use ∧
    (createQuestion db nq).2.responseA = nq.responseA ∧
    (createQuestion db nq).2.responseB = nq.responseB ∧
    (createQuestion db nq).2.responseC = nq.responseC ∧
    (createQuestion db nq).2.responseD = nq.responseD := by
  refine ⟨rfl, ?_, ?_, rfl, rfl, rfl, rfl, rfl, rfl, rfl, rfl⟩
  · intro h
    subst h
    rfl
  · intro k hmem hub
    obtain ⟨q, hq, hqk⟩ := hmem
    have h1 : k ≤ (db.map Question.qid).foldr max 0 :=
      mem_le_foldrMax _ k (hqk ▸ List.mem_map_of_mem Question.qid hq)
    have h2 : (db.map Question.qid).foldr max 0 ≤ k := by
      refine foldrMax_le _ k ?_
      intro x hx
      obtain ⟨q', hq', rfl⟩ := List.mem_map.mp hx
      exact hub q' hq'
    show (db.map Question.qid).foldr max 0 + 1 = k + 1
    omega

def qW : Question :=
  { qid := 41, question := str "what", subject := str "math",
    correct := str "A", use := str "exam", responseA := some (str "a"),
    responseB := some (str "b"), responseC := some (str "c"),
    responseD := some (str "d") }

def nqW : QuestionIn :=
  { question := str "new", subject := str "bio", correct := str "B",
    use := str "exam" }

/-- Witness for C2 at a one-element store with maximum qid 41. -/
theorem createQuestion_append_spec_witness :
    (createQuestion [qW] nqW).2.qid = 41 + 1 :=
  (createQuestion_append_spec [qW] nqW).2.2.1 41
    ⟨qW, .head _, by decide⟩ (by decide)

theorem loadQuestionsAux_qids (rows : List Row) :
    ∀ i, (loadQuestionsAux i rows).map Question.qid =
      List.range' (i + 1) rows.length := by
  induction rows with
  | nil => intro i; rfl
  | cons r rs ih =>
    intro i
    simp only [loadQuestionsAux, List.map_cons, ih (i + 1), List.length_cons,
      List.range'_succ]
    rfl

/-- C9: every reachable store state — the bulk load (qid = row position
+ 1), the empty store after a failed load, and any sequence of appends
(qid = max existing + 1) — has pairwise distinct qids. -/
theorem reachable_qid_nodup (db : List Question) (h : Reachable db) :
    (db.map Question.qid).Nodup := by
  induction h with
  | loaded rows =>
    rw [show loadQuestions rows = loadQuestionsAux 0 rows from rfl,
      loadQuestionsAux_qids rows 0]
    exact List.nodup_range' 1 rows.length
  | loadFailed => simp
  | append db nq hdb ih =>
    have hmap : (createQuestion db nq).1.map Question.qid =
        db.map Question.qid ++ [(db.map Question.qid).foldr max 0 + 1] := by
      simp [createQuestion]
    rw [hmap, List.nodup_append]
    refine ⟨ih, List.nodup_singleton _, ?_⟩
    rw [List.disjoint_singleton]
    intro hmem
    have := mem_le_foldrMax _ _ hmem
    omega

def rowW : Row :=
  { question := str "loaded", subject := str "math", correct := str "A",
    use := str "exam", responsea := str "ra", responseb := str "rb",
    responsec := str "rc", responsed := str "rd" }

/-- Witness for C9: load one row, then append once. -/
theorem reachable_qid_nodup_witness :
    (((createQuestion (loadQuestions [rowW]) nqW).1).map Question.qid).Nodup :=
  reachable_qid_nodup _ (Reachable.append _ _ (Reachable.loaded [rowW]))

theorem mem_loadQuestionsAux (rows : List Row) :
    ∀ i q, q ∈ loadQuestionsAux i rows →
      ∃ j r, r ∈ rows ∧ q = mkLoadedQuestion j r := by
  induction rows with
  | nil => intro i q h; cases h
  | cons r rs ih =>
    intro i q h
    cases List.mem_cons.mp h with
    | inl h => exact ⟨i, r, .head _, h⟩
    | inr h =>
      obtain ⟨j, r', hr', hq⟩ := ih (i + 1) q h
      exact ⟨j, r', .tail _ hr', hq⟩

/-- C10: a POST payload that omits an optional response field yields a
stored (and returned) Question with `none` in that slot, while every
bulk-loaded Question carries `some` text in all four response slots. -/
theorem responseFields_asymmetry :
    (∀ db nq,
      ((nq : QuestionIn).responseA = none →
        (createQuestion db nq).2.responseA = none) ∧
      (nq.responseB = none → (createQuestion db nq).2.responseB = none) ∧
      (nq.responseC = none → (createQuestion db nq).2.responseC = none) ∧
      (nq.responseD = none → (createQuestion db nq).2.responseD = none)) ∧
    (∀ rows q, q ∈ loadQuestions rows →
      (∃ s, q.responseA = some s) ∧ (∃ s, q.responseB = some s) ∧
      (∃ s, q.responseC = some s) ∧ (∃ s, q.responseD = some s)) := by
  constructor
  · intro db nq
    exact ⟨fun h => h, fun h => h, fun h => h, fun h => h⟩
  · intro rows q hq
    obtain ⟨j, r, _, rfl⟩ := mem_loadQuestionsAux rows 0 q hq
    exact ⟨⟨r.responsea, rfl⟩, ⟨r.responseb, rfl⟩, ⟨r.responsec, rfl⟩,
      ⟨r.responsed, rfl⟩⟩

/-- Witness for C10: `nqW` omits `responseA`; the loaded row `rowW` has
text in `responseA`. -/
theorem responseFields_asymmetry_witness :
    (createQuestion [] nqW).2.responseA = none ∧
    ∃ s, (mkLoadedQuestion 0 rowW).responseA = some s :=
  ⟨(responseFields_asymmetry.1 [] nqW).1 rfl,
   (responseFields_asymmetry.2 [rowW] (mkLoadedQuestion 0 rowW)
     (.head _)).1⟩

/-- C8: on an admin append the persistence branch runs exactly when the
target path exists, anything written is the serialization of the entire
post-append store (not just the new entry), and the response is the
created Question whether or not the write succeeds. -/
theorem createQuestionEndpoint_persistence (pathExists writeOk : Bool)
    (db : List Question) (nq : QuestionIn) :
    (createQuestionEndpoint true pathExists writeOk db nq).attempted =
      pathExists ∧
    (∀ rows,
      (createQuestionEndpoint true pathExists writeOk db nq).written =
        some rows →
      rows = (createQuestion db nq).1.map serializeRow) ∧
    (pathExists = false →
      (createQuestionEndpoint true pathExists writeOk db nq).written =
        none) ∧
    (createQuestionEndpoint true pathExists writeOk db nq).response =
      .ok (createQuestion db nq).2 ∧
    (createQuestionEndpoint true pathExists writeOk db nq).newDb =
      (createQuestion db nq).1 := by
  cases pathExists <;> cases writeOk <;>
    simp [createQuestionEndpoint]

/-- Witness for C8: with a missing target path nothing is written, yet
the response is still the created Question. -/
theorem createQuestionEndpoint_persistence_witness :
    (createQuestionEndpoint true false true [] nqW).written = none ∧
    (createQuestionEndpoint true false true [] nqW).response =
      .ok (createQuestion [] nqW).2 :=
  ⟨(createQuestionEndpoint_persistence false true [] nqW).2.2.1 rfl,
   (createQuestionEndpoint_persistence false true [] nqW).2.2.2.1⟩

/-- C4: the code's subject normalization equals the spec's (split on
commas, trim, discard empties, lowercase each token), and the code's
match filter keeps exactly the Questions whose trimmed, lowercased `use`
equals the request's and whose trimmed, lowercased `subject` lies in the
normalized subject set. -/
theorem getQuestions_matching_refines (subject : List Str) (use : Str)
    (db : List Question) :
    normalizeSubjects subject = specNormalizedSubjects subject ∧
    ∀ q, q ∈ db.filter (questionMatches use (normalizeSubjects subject)) ↔
      q ∈ db ∧ specMatches use subject q := by
  have hn : normalizeSubjects subject = specNormalizedSubjects subject := by
    unfold normalizeSubjects specNormalizedSubjects
    rw [List.map_flatten, List.map_map]
    rfl
  refine ⟨hn, ?_⟩
  intro q
  rw [List.mem_filter]
  exact and_congr_right fun _ => by
    simp [questionMatches, specMatches, hn]

/-- C6: any count outside {5, 10, 20} is rejected with the 400
`badCount` error, for every store — the check precedes matching. -/
theorem getQuestions_badCount (sample : List Question → Nat → List Question)
    (shuffle : List Question → List Question) (db : List Question)
    (use : Str) (subject : List Str) (count : Int)
    (h : ¬ (count = 5 ∨ count = 10 ∨ count = 20)) :
    getQuestions sample shuffle db use subject count = .error .badCount := by
  simp only [getQuestions]
  rw [if_pos h]

/-- Witness for C6: `count = 3` is rejected even on an empty store. -/
theorem getQuestions_badCount_witness :
    getQuestions (fun pop k => pop.take k) id [] (str "exam")
      [str "math"] 3 = .error .badCount :=
  getQuestions_badCount _ _ _ _ _ 3 (by decide)

theorem takeSample_length (pop : List Question) (k : Nat)
    (hk : k ≤ pop.length) : (pop.take k).length = k := by
  simp [List.length_take, Nat.min_eq_left hk]

theorem idShuffle_perm (l : List Question) : id l ~ l := List.Perm.refl l

/-- C5: with a valid count, zero matches fail with the 404 `notFound`
error, a positive match count below the requested one fails with the 400
`notEnough` error, and every successful result has exactly the requested
length — never fewer. -/
theorem getQuestions_failure_spec
    (sample : List Question → Nat → List Question)
    (shuffle : List Question → List Question) (db : List Question)
    (use : Str) (subject : List Str) (count : Int)
    (hcount : count = 5 ∨ count = 10 ∨ count = 20)
    (hsample : ∀ pop k, k ≤ pop.length → (sample pop k).length = k)
    (hshuffle : ∀ l, shuffle l ~ l) :
    (db.filter (questionMatches use (normalizeSubjects subject)) = [] →
      getQuestions sample shuffle db use subject count =
        .error .notFound) ∧
    (0 < (db.filter (questionMatches use (normalizeSubjects subject))).length →
      ((db.filter (questionMatches use (normalizeSubjects subject))).length : Int) < count →
      getQuestions sample shuffle db use subject count =
        .error (.notEnough
          (db.filter (questionMatches use (normalizeSubjects subject))).length
          count)) ∧
    (∀ res, getQuestions sample shuffle db use subject count = .ok res →
      (res.length : Int) = count) := by
  have hnn : ¬¬(count = 5 ∨ count = 10 ∨ count = 20) := not_not_intro hcount
  refine ⟨?_, ?_, ?_⟩
  · intro h
    simp only [getQuestions]
    rw [if_neg hnn, if_pos h]
  · intro hpos hlt
    have hne : db.filter (questionMatches use (normalizeSubjects subject)) ≠ [] := by
      intro h
      rw [h] at hpos
      exact absurd hpos (by simp)
    simp only [getQuestions]
    rw [if_neg hnn, if_neg hne, if_pos hlt]
  · intro res h
    simp only [getQuestions] at h
    rw [if_neg hnn] at h
    by_cases h1 : db.filter (questionMatches use (normalizeSubjects subject)) = []
    · rw [if_pos h1] at h
      cases h
    · rw [if_neg h1] at h
      by_cases h2 : ((db.filter (questionMatches use (normalizeSubjects subject))).length : Int) < count
      · rw [if_pos h2] at h
        cases h
      · rw [if_neg h2] at h
        injection h with h
        subst h
        have hc0 : (0 : Int) ≤ count := by
          rcases hcount with rfl | rfl | rfl <;> decide
        have hle : count.toNat ≤
            (db.filter (questionMatches use (normalizeSubjects subject))).length :=
          Int.toNat_le.mpr (le_of_not_lt h2)
        have hlen := hsample _ _ hle
        rw [(hshuffle _).length_eq, hlen, Int.toNat_of_nonneg hc0]

/-- Witness for C5: a store whose single question matches `use=exam`,
`subject=math`; a request for 5 fails with `notEnough`, and a request
with a non-matching use fails with `notFound`. -/
theorem getQuestions_failure_spec_witness :
    getQuestions (fun pop k => pop.take k) id [qW] (str "zzz")
      [str "math"] 5 = .error .notFound ∧
    getQuestions (fun pop k => pop.take k) id [qW] (str "exam")
      [str "math"] 5 =
      .error (.notEnough
        ([qW].filter (questionMatches (str "exam")
          (normalizeSubjects [str "math"]))).length 5) :=
  ⟨(getQuestions_failure_spec _ id [qW] (str "zzz") [str "math"] 5
      (Or.inl rfl) takeSample_length idShuffle_perm).1 (by decide),
   (getQuestions_failure_spec _ id [qW] (str "exam") [str "math"] 5
      (Or.inl rfl) takeSample_length idShuffle_perm).2.1
      (by decide) (by decide)⟩

/-- C3: under the sampling contract of `random.sample` (a length-`k`
sub-permutation of the population) and the permutation contract of
`random.shuffle`, a valid request with at least `count` matches succeeds
with exactly `count` Questions, pairwise distinct qids, all drawn from
the match set. -/
theorem getQuestions_success_spec
    (sample : List Question → Nat → List Question)
    (shuffle : List Question → List Question) (db : List Question)
    (use : Str) (subject : List Str) (count : Int)
    (hcount : count = 5 ∨ count = 10 ∨ count = 20)
    (hnodup : (db.map Question.qid).Nodup)
    (hsample : ∀ pop k, k ≤ pop.length →
      (sample pop k).length = k ∧ sample pop k <+~ pop)
    (hshuffle : ∀ l, shuffle l ~ l)
    (hge : count ≤
      ((db.filter (questionMatches use (normalizeSubjects subject))).length : Int)) :
    ∃ res, getQuestions sample shuffle db use subject count = .ok res ∧
      (res.length : Int) = count ∧
      (res.map Question.qid).Nodup ∧
      ∀ q ∈ res,
        q ∈ db.filter (questionMatches use (normalizeSubjects subject)) := by
  have hc0 : (0 : Int) < count := by
    rcases hcount with rfl | rfl | rfl <;> decide
  have hle : count.toNat ≤
      (db.filter (questionMatches use (normalizeSubjects subject))).length :=
    Int.toNat_le.mpr hge
  have hne : db.filter (questionMatches use (normalizeSubjects subject)) ≠ [] := by
    intro h
    rw [h] at hge
    simp at hge
    omega
  have hnlt :
      ¬((db.filter (questionMatches use (normalizeSubjects subject))).length : Int) < count :=
    not_lt.mpr hge
  obtain ⟨hlen, hsub⟩ :=
    hsample (db.filter (questionMatches use (normalizeSubjects subject)))
      count.toNat hle
  refine ⟨shuffle (sample
      (db.filter (questionMatches use (normalizeSubjects subject)))
      count.toNat), ?_, ?_, ?_, ?_⟩
  · simp only [getQuestions]
    rw [if_neg (not_not_intro hcount), if_neg hne, if_neg hnlt]
  · rw [(hshuffle _).length_eq, hlen, Int.toNat_of_nonneg (le_of_lt hc0)]
  · obtain ⟨l, hperm, hsublist⟩ := hsub
    have hmsqid :
        ((db.filter (questionMatches use (normalizeSubjects subject))).map
          Question.qid).Nodup :=
      hnodup.sublist ((List.filter_sublist db).map Question.qid)
    have hlq : (l.map Question.qid).Nodup :=
      hmsqid.sublist (hsublist.map Question.qid)
    have hsq : ((sample
        (db.filter (questionMatches use (normalizeSubjects subject)))
        count.toNat).map Question.qid).Nodup :=
      ((hperm.map Question.qid).nodup_iff).mp hlq
    exact (((hshuffle _).map Question.qid).nodup_iff).mpr hsq
  · intro q hq
    exact hsub.subset ((hshuffle _).mem_iff.mp hq)

/-- Witness for C3: five loaded copies of `rowW` all match `use=exam`,
`subject=math`; take-sampling and identity shuffling satisfy the
contracts. -/
theorem getQuestions_success_spec_witness :
    ∃ res, getQuestions (fun pop k => pop.take k) id
        (loadQuestions [rowW, rowW, rowW, rowW, rowW]) (str "exam")
        [str "math"] 5 = .ok res ∧
      (res.length : Int) = 5 ∧
      (res.map Question.qid).Nodup ∧
      ∀ q ∈ res,
        q ∈ (loadQuestions [rowW, rowW, rowW, rowW, rowW]).filter
          (questionMatches (str "exam") (normalizeSubjects [str "math"])) :=
  getQuestions_success_spec _ id _ (str "exam") [str "math"] 5
    (Or.inl rfl) (by decide)
    (fun pop k hk => ⟨takeSample_length pop k hk,
      (List.take_sublist k pop).subperm⟩)
    idShuffle_perm (by decide)
